import Mathlib

/-!
Shallow embedding of the reconciliation and naming logic of the
hypershift-toolkit AWS installer (contrib/pkg/aws).

Conventions of the embedding:
* Go strings are modelled as lists of characters (`GoStr`); the names handled
  here are ASCII, so Go byte length coincides with list length.
* Go `int` is modelled as `Int`; Go string slicing `s[0:k]` is modelled by
  `List.take` (with a separate bounds-checked variant `goSlice` returning
  `Option` to capture the runtime panic on an out-of-range slice).
* Cloud-API state (EC2 addresses, load balancers, target groups, Route53
  record sets, registered targets) is modelled explicitly; each modelled
  operation returns its result, the successor state and the list of cloud
  API calls it issued.
-/

namespace Hypershift



/-- Go strings, modelled as lists of characters. -/
abbrev GoStr := List Char


/-- View a Lean string literal as a `GoStr`. -/
def gs (s : String) : GoStr := s.toList


/-- Embeds the source's `max` helper on Go ints:
`if b > a { return b }; return a`. -/
def goMax (a b : Int) : Int := if b > a then b else a


/-- Embeds the source's `min` helper on Go ints:
`if b < a { return b }; return a`. -/
def goMin (a b : Int) : Int := if b < a then b else a


/-- One step of the FNV-1a 32-bit hash: xor in a byte, multiply by the FNV
prime, reduced modulo 2^32. -/
def fnv32aStep (h : Nat) (c : Char) : Nat :=
  ((h ^^^ c.toNat) * 16777619) % 4294967296


/-- FNV-1a 32-bit hash of a string, as computed by `fnv.New32a` +
`hash.Write([]byte(s))` + `hash.Sum32()` in the source's `hash` function. -/
def fnv32a (s : GoStr) : Nat :=
  s.foldl fnv32aStep 2166136261


/-- Lower-case hexadecimal digit. -/
def hexDigitChar (d : Nat) : Char :=
  if d < 10 then Char.ofNat (48 + d) else Char.ofNat (87 + d)


/-- Embeds the source's `hash` function: the 8-character zero-padded
lower-case hexadecimal rendering `fmt.Sprintf("%08x", intHash)` of the
FNV-1a 32-bit hash of `s` (a 32-bit value has exactly eight hex digits once
zero-padded to width 8). -/
def hash (s : GoStr) : GoStr :=
  (List.range 8).map (fun i => hexDigitChar (fnv32a s / 16 ^ (7 - i) % 16))


/-- The naive joined name `fmt.Sprintf("%s-%s", base, suffix)`. -/
def goName (base suffix : GoStr) : GoStr := base ++ ('-' :: suffix)


/-- The `[base]-[suffix]` overflow case of `getName` in which the suffix is
dropped: the truncated base (`prefix` in the source) joined to the hash of
the full name, before the final re-truncation to `maxLength`. -/
def shortNameOf (base suffix : GoStr) (maxLength : Int) : GoStr :=
  base.take (goMin (base.length : Int) (goMax 0 (maxLength - 9))).toNat
    ++ ('-' :: hash (goName base suffix))


/-- Embeds `getName(base, suffix string, maxLength int) string` from the
installer: join base and suffix with a dash; if the result is longer than
`maxLength`, truncate the base and insert an 8-character hash (dropping the
suffix entirely when it alone is too long). Go's clamping-free slices are
rendered with `List.take`, which on the in-range indices reached here agrees
with Go (see `getNameChecked`). -/
def getName (base suffix : GoStr) (maxLength : Int) : GoStr :=
  if maxLength ≤ 0 then []
  else if ((goName base suffix).length : Int) ≤ maxLength then goName base suffix
  else if maxLength - 10 - (suffix.length : Int) < 0 then
    (shortNameOf base suffix maxLength).take
      (goMin maxLength ((shortNameOf base suffix maxLength).length : Int)).toNat
  else
    base.take (maxLength - 10 - (suffix.length : Int)).toNat
      ++ ('-' :: hash base) ++ ('-' :: suffix)


/-- Go slice expression `s[0:hi]`: defined only when `0 ≤ hi ≤ len(s)`;
out of range it panics, modelled by `none`. -/
def goSlice (s : GoStr) (hi : Int) : Option GoStr :=
  if 0 ≤ hi ∧ hi ≤ (s.length : Int) then some (s.take hi.toNat) else none


/-- `getName` with every Go slice expression bounds-checked: `none` exactly
when the Go original would panic with an out-of-range slice. -/
def getNameChecked (base suffix : GoStr) (maxLength : Int) : Option GoStr :=
  if maxLength ≤ 0 then some []
  else if ((goName base suffix).length : Int) ≤ maxLength then some (goName base suffix)
  else if maxLength - 10 - (suffix.length : Int) < 0 then
    match goSlice base (goMin (base.length : Int) (goMax 0 (maxLength - 9))) with
    | none => none
    | some pfx =>
      match goSlice (pfx ++ ('-' :: hash (goName base suffix)))
          (goMin maxLength (((pfx ++ ('-' :: hash (goName base suffix)))).length : Int)) with
      | none => none
      | some r => some r
  else
    match goSlice base (maxLength - 10 - (suffix.length : Int)) with
    | none => none
    | some pfx => some (pfx ++ ('-' :: hash base) ++ ('-' :: suffix))


/-- `generateLBResourceName(infraName, clusterName, suffix)`:
`getName` over `"infraName-clusterName"` with limit 32. -/
def generateLBResourceName (infraName clusterName suffix : GoStr) : GoStr :=
  getName (infraName ++ ('-' :: clusterName)) suffix 32


/-- `generateBucketName(infraName, clusterName, suffix)`: limit 63. -/
def generateBucketName (infraName clusterName suffix : GoStr) : GoStr :=
  getName (infraName ++ ('-' :: clusterName)) suffix 63


/-- `generateMachineSetName(infraName, clusterName, suffix)`: limit 43. -/
def generateMachineSetName (infraName clusterName suffix : GoStr) : GoStr :=
  getName (infraName ++ ('-' :: clusterName)) suffix 43


/-- EC2 API calls issued by the modelled operations. -/
inductive EC2Call where
  | describeAddresses (nameTag : GoStr)
  | allocateAddress
  | createTags (resourceId : GoStr) (nameTag : GoStr)
deriving DecidableEq


/-- An allocated elastic IP address, together with its `Name` tag (empty
until `CreateTags` sets it). -/
structure Address where
  nameTag : GoStr
  allocationId : GoStr
  publicIp : GoStr
deriving DecidableEq


/-- EC2-side cloud state: the allocated addresses plus a counter from which
fresh allocation identities are drawn. -/
structure EC2State where
  addresses : List Address
  nextId : Nat
deriving DecidableEq


/-- Allocation identity of the `n`-th allocated address. -/
def mkAllocId (n : Nat) : GoStr := gs ("eipalloc-") ++ Nat.toDigits 10 n


/-- Public IP of the `n`-th allocated address. -/
def mkPublicIp (n : Nat) : GoStr := gs ("ip-") ++ Nat.toDigits 10 n


/-- `DescribeAddresses` filtered by `tag:Name = name`. -/
def describeAddressesByName (st : EC2State) (name : GoStr) : List Address :=
  st.addresses.filter (fun a => decide (a.nameTag = name))


/-- The `n`-th allocated address, carrying `Name` tag `name`. -/
def freshAddr (name : GoStr) (n : Nat) : Address :=
  { nameTag := name, allocationId := mkAllocId n, publicIp := mkPublicIp n }


/-- `AllocateAddress(Domain: "vpc")`: a fresh, as yet untagged address;
returns its allocation ID, its public IP and the successor state. -/
def allocateAddress (st : EC2State) : GoStr × GoStr × EC2State :=
  (mkAllocId st.nextId, mkPublicIp st.nextId,
    { addresses := st.addresses ++ [freshAddr [] st.nextId],
      nextId := st.nextId + 1 })


/-- The effect of `CreateTags` on one address: set `Name = name` when the
resource ID matches. -/
def tagAddress (resId name : GoStr) (a : Address) : Address :=
  if a.allocationId = resId then { a with nameTag := name } else a


/-- EC2 state after `EnsureEIP` has allocated and tagged a fresh address. -/
def eipCreatedState (name : GoStr) (st : EC2State) : EC2State :=
  { addresses := st.addresses ++ [freshAddr name st.nextId],
    nextId := st.nextId + 1 }


/-- `CreateTags` setting `Name = name` on the resource `resId`. -/
def createNameTag (st : EC2State) (resId name : GoStr) : EC2State :=
  { st with addresses := st.addresses.map (tagAddress resId name) }


/-- Result of `EnsureEIP`: the identity returned, the successor cloud state
and the API calls issued. -/
structure EnsureEIPResult where
  allocationId : GoStr
  publicIp : GoStr
  state : EC2State
  calls : List EC2Call
deriving DecidableEq


/-- Embeds `EnsureEIP(name)`: look up an address tagged `Name=name`; if one
exists return its identity unchanged; otherwise allocate a new address and
tag it with `Name=name` (and the ownership tag). -/
def EnsureEIP (name : GoStr) (st : EC2State) : EnsureEIPResult :=
  match describeAddressesByName st name with
  | a :: _ =>
    { allocationId := a.allocationId, publicIp := a.publicIp, state := st,
      calls := [.describeAddresses name] }
  | [] =>
    match allocateAddress st with
    | (allocId, ip, st1) =>
      { allocationId := allocId, publicIp := ip,
        state := createNameTag st1 allocId name,
        calls := [.describeAddresses name, .allocateAddress,
          .createTags allocId name] }


/-- ELB (elbv2) API calls issued by the modelled operations. -/
inductive ElbCall where
  | describeLoadBalancers (name : GoStr)
  | createLoadBalancer (name : GoStr) (subnet : GoStr) (eipAllocId : GoStr)
  | deleteLoadBalancer (arn : GoStr)
  | describeTargetGroups (name : GoStr)
  | createTargetGroup (name : GoStr) (port : Int) (protocol : GoStr)
  | deleteTargetGroup (arn : GoStr)
  | describeTargetHealth (tgArn : GoStr)
  | deregisterTargets (tgArn : GoStr) (targetId : GoStr)
  | registerTargets (tgArn : GoStr) (targetId : GoStr)
deriving DecidableEq


/-- A network load balancer. -/
structure LoadBalancer where
  name : GoStr
  arn : GoStr
  dnsName : GoStr
deriving DecidableEq


/-- A target group. -/
structure TargetGroup where
  name : GoStr
  port : Int
  protocol : GoStr
  arn : GoStr
deriving DecidableEq


/-- ELB-side cloud state: load balancers and target groups plus a counter
from which fresh ARNs are drawn. -/
structure ElbState where
  loadBalancers : List LoadBalancer
  targetGroups : List TargetGroup
  nextId : Nat
deriving DecidableEq


/-- ARN of the `n`-th created load balancer. -/
def mkLBArn (n : Nat) : GoStr := gs ("arn:elb:loadbalancer/") ++ Nat.toDigits 10 n


/-- DNS name of the `n`-th created load balancer. -/
def mkLBDns (n : Nat) : GoStr := gs ("lb-") ++ Nat.toDigits 10 n


/-- The `n`-th created load balancer, under the given name. -/
def freshLB (name : GoStr) (n : Nat) : LoadBalancer :=
  { name := name, arn := mkLBArn n, dnsName := mkLBDns n }


/-- ELB state after `EnsureNLB` has created a fresh load balancer. -/
def nlbCreatedState (name : GoStr) (st : ElbState) : ElbState :=
  { st with
    loadBalancers := st.loadBalancers ++ [freshLB name st.nextId],
    nextId := st.nextId + 1 }


/-- ARN of the `n`-th created target group. -/
def mkTGArn (n : Nat) : GoStr := gs ("arn:elb:targetgroup/") ++ Nat.toDigits 10 n


/-- The protocol string `elbv2.ProtocolEnumTcp`. -/
def tcpProtocol : GoStr := gs ("TCP")


/-- The protocol string `"UDP"`. -/
def udpProtocol : GoStr := gs ("UDP")


/-- `DescribeLoadBalancers(Names: [name])`: the matching load balancers; an
empty result models the `LoadBalancerNotFoundException` path. -/
def lbByName (st : ElbState) (name : GoStr) : List LoadBalancer :=
  st.loadBalancers.filter (fun lb => decide (lb.name = name))


/-- `DescribeTargetGroups(Names: [name])`: the matching target groups; an
empty result models the `TargetGroupNotFoundException` path. -/
def tgByName (st : ElbState) (name : GoStr) : List TargetGroup :=
  st.targetGroups.filter (fun tg => decide (tg.name = name))


/-- Result of `EnsureNLB`. -/
structure EnsureNLBResult where
  arn : GoStr
  dnsName : GoStr
  state : ElbState
  calls : List ElbCall
deriving DecidableEq


/-- Embeds `EnsureNLB(nlbName, subnet, eipAllocID)`: look up by name; if
found, return the existing ARN and DNS name untouched; otherwise create an
internet-facing network load balancer on the given subnet (with the EIP
bound via a subnet mapping when an allocation ID is supplied). -/
def EnsureNLB (nlbName subnet eipAllocID : GoStr) (st : ElbState) :
    EnsureNLBResult :=
  match lbByName st nlbName with
  | lb :: _ =>
    { arn := lb.arn, dnsName := lb.dnsName, state := st,
      calls := [.describeLoadBalancers nlbName] }
  | [] =>
    { arn := mkLBArn st.nextId, dnsName := mkLBDns st.nextId,
      state := { st with
        loadBalancers := st.loadBalancers ++ [freshLB nlbName st.nextId],
        nextId := st.nextId + 1 },
      calls := [.describeLoadBalancers nlbName,
        .createLoadBalancer nlbName subnet eipAllocID] }


/-- Result of a modelled Remove operation on ELB state: the Go error value
(`none` = nil), the successor state and the API calls issued. -/
structure ElbRemoveResult where
  err : Option GoStr
  state : ElbState
  calls : List ElbCall
deriving DecidableEq


/-- Embeds `RemoveNLB(nlbName)`: describe by name; the NotFound exception is
mapped to success; otherwise delete the first returned load balancer by its
ARN. -/
def RemoveNLB (nlbName : GoStr) (st : ElbState) : ElbRemoveResult :=
  match lbByName st nlbName with
  | [] => { err := none, state := st, calls := [.describeLoadBalancers nlbName] }
  | lb :: _ =>
    { err := none,
      state := { st with loadBalancers :=
          st.loadBalancers.filter (fun l => !decide (l.arn = lb.arn)) },
      calls := [.describeLoadBalancers nlbName, .deleteLoadBalancer lb.arn] }


/-- Embeds `RemoveTargetGroup(tgName)`: describe by name; the NotFound
exception is mapped to success; otherwise delete the first returned target
group by its ARN. -/
def RemoveTargetGroup (tgName : GoStr) (st : ElbState) : ElbRemoveResult :=
  match tgByName st tgName with
  | [] => { err := none, state := st, calls := [.describeTargetGroups tgName] }
  | tg :: _ =>
    { err := none,
      state := { st with targetGroups :=
          st.targetGroups.filter (fun t => !decide (t.arn = tg.arn)) },
      calls := [.describeTargetGroups tgName, .deleteTargetGroup tg.arn] }


/-- The target group created by `CreateTargetGroup` in state `st`. -/
def createdTG (tgName : GoStr) (port : Int) (protocol : GoStr) (st : ElbState) :
    TargetGroup :=
  { name := tgName, port := port, protocol := protocol, arn := mkTGArn st.nextId }


/-- `CreateTargetGroup` with the given name, port and protocol; returns the
new ARN and the successor state. -/
def createTargetGroupIn (st : ElbState) (tgName : GoStr) (port : Int)
    (protocol : GoStr) : GoStr × ElbState :=
  (mkTGArn st.nextId,
   { st with
     targetGroups := st.targetGroups ++ [createdTG tgName port protocol st],
     nextId := st.nextId + 1 })


/-- `DeleteTargetGroup` by ARN. -/
def deleteTargetGroupByArn (st : ElbState) (arn : GoStr) : ElbState :=
  { st with targetGroups :=
      st.targetGroups.filter (fun t => !decide (t.arn = arn)) }


/-- Result of the target-group Ensure operations. -/
structure EnsureTGResult where
  arn : GoStr
  state : ElbState
  calls : List ElbCall
deriving DecidableEq


/-- Embeds `EnsureTargetGroup(vpc, tgName, port)` (TCP variant): look up by
name; if found with the requested port, return the existing ARN; if found
with a different port, delete it and recreate with the requested port; if
absent, create it. -/
def EnsureTargetGroup (vpc tgName : GoStr) (port : Int) (st : ElbState) :
    EnsureTGResult :=
  match tgByName st tgName with
  | tg :: _ =>
    if tg.port = port then
      { arn := tg.arn, state := st, calls := [.describeTargetGroups tgName] }
    else
      { arn := (createTargetGroupIn (deleteTargetGroupByArn st tg.arn) tgName
          port tcpProtocol).1,
        state := (createTargetGroupIn (deleteTargetGroupByArn st tg.arn) tgName
          port tcpProtocol).2,
        calls := [.describeTargetGroups tgName, .deleteTargetGroup tg.arn,
          .createTargetGroup tgName port tcpProtocol] }
  | [] =>
    { arn := (createTargetGroupIn st tgName port tcpProtocol).1,
      state := (createTargetGroupIn st tgName port tcpProtocol).2,
      calls := [.describeTargetGroups tgName,
        .createTargetGroup tgName port tcpProtocol] }


/-- Embeds `EnsureUDPTargetGroup(vpc, tgName, port, healthCheckPort)`: same
lookup / delete-on-drift / create logic as the TCP variant, creating a UDP
target group whose health check runs over TCP on `healthCheckPort`. -/
def EnsureUDPTargetGroup (vpc tgName : GoStr) (port healthCheckPort : Int)
    (st : ElbState) : EnsureTGResult :=
  match tgByName st tgName with
  | tg :: _ =>
    if tg.port = port then
      { arn := tg.arn, state := st, calls := [.describeTargetGroups tgName] }
    else
      { arn := (createTargetGroupIn (deleteTargetGroupByArn st tg.arn) tgName
          port udpProtocol).1,
        state := (createTargetGroupIn (deleteTargetGroupByArn st tg.arn) tgName
          port udpProtocol).2,
        calls := [.describeTargetGroups tgName, .deleteTargetGroup tg.arn,
          .createTargetGroup tgName port udpProtocol] }
  | [] =>
    { arn := (createTargetGroupIn st tgName port udpProtocol).1,
      state := (createTargetGroupIn st tgName port udpProtocol).2,
      calls := [.describeTargetGroups tgName,
        .createTargetGroup tgName port udpProtocol] }


/-- The registered targets of one target group (the group identified by the
ARN passed to `EnsureTarget`), in the order `DescribeTargetHealth` returns
them. -/
abbrev Registered := List GoStr


/-- Result of `EnsureTarget` on one target group's registration list. -/
structure EnsureTargetResult where
  registered : Registered
  calls : List ElbCall
deriving DecidableEq


/-- The loop of `EnsureTarget` over the described target-health entries: an
entry whose ID equals `targetID` makes the whole function return
immediately; any other entry is deregistered. When the loop completes
without a match, `targetID` is registered. -/
def ensureTargetLoop (tgArn targetID : GoStr) :
    List GoStr → Registered → EnsureTargetResult
  | [], current =>
    { registered := current ++ [targetID],
      calls := [.registerTargets tgArn targetID] }
  | hd :: rest, current =>
    if hd = targetID then { registered := current, calls := [] }
    else
      { registered :=
          (ensureTargetLoop tgArn targetID rest (current.erase hd)).registered,
        calls := .deregisterTargets tgArn hd ::
          (ensureTargetLoop tgArn targetID rest (current.erase hd)).calls }


/-- Embeds `EnsureTarget(targetGroupARN, targetID)`: describe the target
health of the group and run the deregister-until-match loop over the
returned entries against the current registration list. -/
def EnsureTarget (tgArn targetID : GoStr) (registered : Registered) :
    EnsureTargetResult :=
  { registered :=
      (ensureTargetLoop tgArn targetID registered registered).registered,
    calls := .describeTargetHealth tgArn ::
      (ensureTargetLoop tgArn targetID registered registered).calls }


/-- An existing port-80 target group used to witness the drift theorem. -/
def tgDriftTG : TargetGroup :=
  { name := gs ("t"), port := 80, protocol := tcpProtocol, arn := gs ("a1") }


/-- A one-target-group cloud state used to witness the drift theorem. -/
def tgDriftState : ElbState :=
  { loadBalancers := [], targetGroups := [tgDriftTG], nextId := 1 }


/-- Status of a Kubernetes node condition (`corev1.ConditionStatus`). -/
inductive CondStatus where
  | condTrue
  | condFalse
  | condUnknown
deriving DecidableEq


/-- One entry of `node.Status.Conditions`. -/
structure NodeCondition where
  condType : GoStr
  status : CondStatus
deriving DecidableEq


/-- A node, reduced to its status conditions. -/
structure Node where
  conditions : List NodeCondition
deriving DecidableEq


/-- The condition type `corev1.NodeReady`. -/
def nodeReadyType : GoStr := gs ("Ready")


/-- The status of the first `Ready`-typed condition of a node, if any: the
inner loop of `allNodesReady` decides each node at the first condition
whose type is `NodeReady` (break on `True`, early return otherwise). -/
def nodeReadyStatus (node : Node) : Option CondStatus :=
  (node.conditions.find? (fun c => decide (c.condType = nodeReadyType))).map
    (fun c => c.status)


/-- Embeds the `allNodesReady` watch condition of `waitForNodesReady`: the
listed nodes must number at least `expectedCount` and every node's first
`Ready` condition must be `True`. In every other case — including a node
whose `Ready` condition is `False` — the function returns `false` with a
nil error, i.e. it reports the condition as not yet satisfied. In this pure
model the list call cannot fail, so the error results of the original are
unreachable and the outcome is a plain `Bool`. -/
def allNodesReady (expectedCount : Nat) (nodeList : List Node) : Bool :=
  if nodeList.length < expectedCount then false
  else nodeList.all (fun n => decide (nodeReadyStatus n = some .condTrue))


/-- Embeds the surrounding wait `clientwatch.UntilWithSync(ctx, lw, ...,
allNodesReady)` of `waitForNodesReady`: the watch delivers a sequence of
node-list snapshots within the 10-minute window, and since the condition
function only ever answers `true` (done) or `false, nil` (keep waiting),
the wait succeeds exactly when some delivered snapshot satisfies the
condition, and otherwise fails by running out of snapshots (timeout). -/
def waitForNodesReady (expectedCount : Nat)
    (observations : List (List Node)) : Bool :=
  observations.any (allNodesReady expectedCount)


/-- A node whose first `Ready` condition is `False`. -/
def nodeNotReady : Node :=
  { conditions := [{ condType := nodeReadyType, status := .condFalse }] }


/-- A node whose first `Ready` condition is `True`. -/
def nodeReady : Node :=
  { conditions := [{ condType := nodeReadyType, status := .condTrue }] }


/-- A Route53 resource record set, reduced to name, type and values. -/
structure ResourceRecordSet where
  name : GoStr
  recordType : GoStr
  values : List GoStr
deriving DecidableEq


/-- A change issued through `ChangeResourceRecordSets`. -/
inductive R53Change where
  | upsert (name : GoStr) (rtype : GoStr) (value : GoStr)
  | delete (name : GoStr) (rtype : GoStr) (value : GoStr)
deriving DecidableEq


/-- The record type string `"CNAME"`. -/
def cnameType : GoStr := gs ("CNAME")


/-- The scan of `RemoveCNameRecord` over the zone's record sets (the paged
`ListResourceRecordSetsPages` walk): the first value of the first record
set whose name equals `dnsName` and which has at least one resource record
(record sets with matching name but no resource records are skipped); the
empty string when no such record exists. -/
def readCNameValue (zone : List ResourceRecordSet) (dnsName : GoStr) :
    GoStr :=
  match zone.find? (fun r => decide (r.name = dnsName) && !r.values.isEmpty) with
  | some r => r.values.headD []
  | none => []


/-- Embeds `RemoveCNameRecord(zoneID, dnsName)`: read the current record
value by scanning the zone; when the scan comes back empty (`value == ""`)
succeed with no change issued; otherwise issue exactly one DELETE change
carrying the value just read. Returns the list of changes issued (the Go
function then always returns nil). -/
def RemoveCNameRecord (zone : List ResourceRecordSet) (dnsName : GoStr) :
    List R53Change :=
  if readCNameValue zone dnsName = [] then []
  else [.delete dnsName cnameType (readCNameValue zone dnsName)]


/-- A CNAME record used to witness the remove-record theorem. -/
def cnameRecWitness : ResourceRecordSet :=
  { name := gs ("api.example.com"), recordType := cnameType,
    values := [gs ("lb.example.com")] }


/-- The management-cluster and cloud state visible to `InstallCluster`. The
first fields are the facts discovered read-only before any mutation (SSH
key, AWS credentials, release image, pull secret, infrastructure name and
region, DNS zone, load-balancer topology); the remaining fields are the
mutable state: namespaces and namespaced objects on the management cluster,
a NodePort allocator for the placeholder services, and the EC2/ELB cloud
state acted on by the reconcilers. -/
structure InstallState where
  sshPublicKey : GoStr
  awsKey : GoStr
  awsSecretKey : GoStr
  releaseImage : GoStr
  pullSecret : GoStr
  infraName : GoStr
  region : GoStr
  dnsZoneId : GoStr
  parentDomain : GoStr
  vpc : GoStr
  subnet : GoStr
  namespaces : List GoStr
  sccNamespaces : List GoStr
  pullSecrets : List (GoStr × GoStr)
  services : List (GoStr × GoStr)
  nextNodePort : Nat
  ec2 : EC2State
  elb : ElbState
deriving DecidableEq


/-- Result of the modelled `InstallCluster` prefix: the Go error value
(`none` = nil so far) and the management-cluster/cloud state after the
call. -/
structure InstallResult where
  err : Option GoStr
  state : InstallState
deriving DecidableEq


/-- The error returned when the target namespace already exists. -/
def nsExistsErr : GoStr :=
  gs ("target namespace already exists on management cluster")


/-- `createKubeAPIServerService` / `createVPNServerService` /
`createOauthService`: create a NodePort service with the given name in the
namespace and return the allocated NodePort. -/
def createNodePortService (st : InstallState) (namespc svcName : GoStr) :
    Nat × InstallState :=
  (st.nextNodePort,
   { st with services := st.services ++ [(namespc, svcName)],
             nextNodePort := st.nextNodePort + 1 })


/-- Modelled prefix of `InstallCluster(name, releaseImage, ...)`: the
read-only discovery of management-cluster facts, the namespace precondition
check (`Namespaces().Get(name)` must report NotFound, otherwise the install
aborts), and the opening mutations that only run after the check passes —
create the namespace, grant the privileged SCC, create the pull secret,
create the placeholder services, then reconcile the API EIP, load balancer
and target group through the reconciler models above. The remaining install
steps follow the same pattern after this point and run only when the whole
prefix has succeeded. -/
def InstallCluster (name : GoStr) (st : InstallState) : InstallResult :=
  if name ∈ st.namespaces then { err := some nsExistsErr, state := st }
  else
    let st1 := { st with namespaces := st.namespaces ++ [name] }
    let st2 := { st1 with sccNamespaces := st1.sccNamespaces ++ [name] }
    let st3 := { st2 with
      pullSecrets := st2.pullSecrets ++ [(name, st2.pullSecret)] }
    let api := createNodePortService st3 name (gs ("kube-apiserver"))
    let vpn := createNodePortService api.2 name (gs ("openvpn-server"))
    let oshift := { vpn.2 with
      services := vpn.2.services ++ [(name, gs ("openshift-apiserver"))] }
    let oauth := createNodePortService oshift name (gs ("oauth-openshift"))
    let apiLBName := generateLBResourceName st.infraName name (gs ("api"))
    let eip := EnsureEIP apiLBName oauth.2.ec2
    let st4 := { oauth.2 with ec2 := eip.state }
    let nlb := EnsureNLB apiLBName st.subnet eip.allocationId st4.elb
    let tg := EnsureTargetGroup st.vpc apiLBName (api.1 : Int) nlb.state
    { err := none, state := { st4 with elb := tg.state } }


/-- A management-cluster state in which namespace `demo` already exists,
used to witness the precondition theorem. -/
def instPreWitnessState : InstallState :=
  { sshPublicKey := [], awsKey := [], awsSecretKey := [], releaseImage := [],
    pullSecret := [], infraName := gs ("abcde"), region := [],
    dnsZoneId := [], parentDomain := [], vpc := [], subnet := [],
    namespaces := [gs ("demo")], sccNamespaces := [], pullSecrets := [],
    services := [], nextNodePort := 30000,
    ec2 := { addresses := [], nextId := 0 },
    elb := { loadBalancers := [], targetGroups := [], nextId := 0 } }


theorem hash_length (s : GoStr) : (hash s).length = 8 := by
  simp [hash]


theorem goMin_le_left (a b : Int) : goMin a b ≤ a := by
  unfold goMin; split <;> omega


theorem goMin_le_right (a b : Int) : goMin a b ≤ b := by
  unfold goMin; split <;> omega


theorem goMin_nonneg (a b : Int) (ha : 0 ≤ a) (hb : 0 ≤ b) : 0 ≤ goMin a b := by
  unfold goMin; split <;> omega


theorem goMax_nonneg_left (a b : Int) (ha : 0 ≤ a) : 0 ≤ goMax a b := by
  unfold goMax; split <;> omega


theorem goName_length (base suffix : GoStr) :
    (goName base suffix).length = base.length + 1 + suffix.length := by
  simp [goName]; omega


theorem goSlice_in_range (s : GoStr) (hi : Int) (h1 : 0 ≤ hi)
    (h2 : hi ≤ (s.length : Int)) : goSlice s hi = some (s.take hi.toNat) := by
  unfold goSlice
  rw [if_pos ⟨h1, h2⟩]


theorem length_take_goMin_le (l : GoStr) (m : Int) (hm : 0 ≤ m) :
    ((l.take (goMin m (l.length : Int)).toNat).length : Int) ≤ m := by
  have h1 := goMin_le_left m (l.length : Int)
  simp only [List.length_take]
  omega


theorem getNameChecked_eq (base suffix : GoStr) (maxLength : Int) :
    getNameChecked base suffix maxLength = some (getName base suffix maxLength) := by
  have hlen := goName_length base suffix
  unfold getNameChecked getName
  split_ifs with h0 h1 h2
  · rfl
  · rfl
  · unfold shortNameOf
    rw [goSlice_in_range base _
      (goMin_nonneg _ _ (Int.natCast_nonneg _) (goMax_nonneg_left _ _ le_rfl))
      (goMin_le_left _ _)]
    dsimp only
    rw [goSlice_in_range _ (goMin maxLength _)
      (goMin_nonneg _ _ (by omega) (Int.natCast_nonneg _)) (goMin_le_right _ _)]
  · rw [goSlice_in_range base _ (by omega) (by omega)]


/-- C10: `getName` never panics: every Go slice it takes is in bounds (the
bounds-checked variant always returns a value, namely the unchecked one), and
for every non-positive maximum length it returns the empty string. -/
theorem getName_total (base suffix : GoStr) (maxLength : Int) :
    getNameChecked base suffix maxLength = some (getName base suffix maxLength) ∧
    (maxLength ≤ 0 → getName base suffix maxLength = []) := by
  refine ⟨getNameChecked_eq base suffix maxLength, fun h => ?_⟩
  unfold getName
  rw [if_pos h]


theorem getName_total_witness :
    getNameChecked (gs ("abcdefgh")) (gs ("ijk")) 5
        = some (getName (gs ("abcdefgh")) (gs ("ijk")) 5) ∧
    getName (gs ("a")) (gs ("b")) 0 = [] :=
  ⟨(getName_total (gs ("abcdefgh")) (gs ("ijk")) 5).1,
   (getName_total (gs ("a")) (gs ("b")) 0).2 (by decide)⟩


/-- C6 counterexample: at a negative maximum length (`maxLength = -1`) the
name returned by `getName` is the empty string, whose length 0 exceeds the
supplied maximum, so the claimed bound fails as stated. -/
theorem getName_negative_max_violates_bound :
    getName (gs ("a")) (gs ("b")) (-1) = [] ∧
    ¬ (((getName (gs ("a")) (gs ("b")) (-1)).length : Int) ≤ -1) := by
  exact ⟨by decide, by decide⟩


/-- C6 (amended): for every nonnegative maximum length the name returned by
`getName` has length at most `maxLength`; and whenever the naive
concatenation `base-suffix` has length at most `maxLength`, `getName`
returns exactly that concatenation. -/
theorem getName_spec (base suffix : GoStr) (maxLength : Int)
    (h : 0 ≤ maxLength) :
    ((getName base suffix maxLength).length : Int) ≤ maxLength ∧
    (((goName base suffix).length : Int) ≤ maxLength →
      getName base suffix maxLength = goName base suffix) := by
  have hlen := goName_length base suffix
  constructor
  · unfold getName
    split_ifs with h0 h1 h2
    · simpa using h
    · exact h1
    · exact length_take_goMin_le _ _ h
    · simp only [List.length_append, List.length_take, List.length_cons,
        hash_length]
      have hmin := Nat.min_le_left (maxLength - 10 - (suffix.length : Int)).toNat
        base.length
      omega
  · intro hfit
    have hpos : ¬ maxLength ≤ 0 := by omega
    unfold getName
    rw [if_neg hpos, if_pos hfit]


theorem getName_spec_witness :
    ((getName (gs ("ab")) (gs ("cd")) 16).length : Int) ≤ 16 ∧
    getName (gs ("ab")) (gs ("cd")) 16 = goName (gs ("ab")) (gs ("cd")) :=
  ⟨(getName_spec (gs ("ab")) (gs ("cd")) 16 (by decide)).1,
   (getName_spec (gs ("ab")) (gs ("cd")) 16 (by decide)).2 (by decide)⟩


/-- C7: installing cluster `demo` with infra name `abcde` derives load
balancer / target group name `abcde-demo-api`, bucket name `abcde-demo-ign`
and worker machine-set name `abcde-demo-worker`; and all three derivation
functions are deterministic: equal identity inputs always yield equal
derived names. -/
theorem naming_deterministic_demo :
    generateLBResourceName (gs ("abcde")) (gs ("demo")) (gs ("api"))
        = gs ("abcde-demo-api") ∧
    generateBucketName (gs ("abcde")) (gs ("demo")) (gs ("ign"))
        = gs ("abcde-demo-ign") ∧
    generateMachineSetName (gs ("abcde")) (gs ("demo")) (gs ("worker"))
        = gs ("abcde-demo-worker") ∧
    (∀ infra₁ infra₂ cluster₁ cluster₂ suffix₁ suffix₂ : GoStr,
      infra₁ = infra₂ → cluster₁ = cluster₂ → suffix₁ = suffix₂ →
      generateLBResourceName infra₁ cluster₁ suffix₁
          = generateLBResourceName infra₂ cluster₂ suffix₂ ∧
      generateBucketName infra₁ cluster₁ suffix₁
          = generateBucketName infra₂ cluster₂ suffix₂ ∧
      generateMachineSetName infra₁ cluster₁ suffix₁
          = generateMachineSetName infra₂ cluster₂ suffix₂) := by
  refine ⟨by decide, by decide, by decide, ?_⟩
  rintro i₁ i₂ c₁ c₂ s₁ s₂ rfl rfl rfl
  exact ⟨rfl, rfl, rfl⟩


theorem naming_deterministic_demo_witness :
    generateLBResourceName (gs ("abcde")) (gs ("demo")) (gs ("api"))
      = generateLBResourceName (gs ("abcde")) (gs ("demo")) (gs ("api")) :=
  (naming_deterministic_demo.2.2.2 (gs ("abcde")) (gs ("abcde")) (gs ("demo"))
    (gs ("demo")) (gs ("api")) (gs ("api")) rfl rfl rfl).1


theorem filter_tag_eq_nil {α : Type} (l : List α) (f : α → GoStr) (name : GoStr)
    (h : ∀ a ∈ l, f a ≠ name) :
    l.filter (fun a => decide (f a = name)) = [] := by
  induction l with
  | nil => rfl
  | cons a t ih =>
    simp only [List.filter_cons]
    rw [if_neg (by simpa using h a (List.mem_cons_self a t))]
    exact ih fun x hx => h x (List.mem_cons_of_mem _ hx)


theorem map_tag_fresh (l : List Address) (resId name : GoStr)
    (h : ∀ a ∈ l, a.allocationId ≠ resId) :
    l.map (tagAddress resId name) = l := by
  induction l with
  | nil => rfl
  | cons a t ih =>
    simp only [List.map_cons]
    rw [show tagAddress resId name a = a from
      if_neg (h a (List.mem_cons_self a t)), ih fun x hx => h x (List.mem_cons_of_mem _ hx)]


/-- C3: lookup-before-create idempotence of the reconcilers cited by the
claim (`EnsureEIP`, `EnsureNLB`): when a resource with the requested name
already exists, Ensure returns that resource's identity unchanged, issues no
creation call and leaves the cloud state untouched; and calling Ensure twice
with identical inputs returns the same identity the second time while the
second call performs only the lookup (no second creation, no mutation). -/
theorem Ensure_idempotent (name subnet eipAllocID : GoStr) (ec2 : EC2State)
    (elb : ElbState)
    (hfresh : ∀ a ∈ ec2.addresses, a.allocationId ≠ mkAllocId ec2.nextId) :
    (∀ a rest, describeAddressesByName ec2 name = a :: rest →
      EnsureEIP name ec2 = { allocationId := a.allocationId,
                             publicIp := a.publicIp, state := ec2,
                             calls := [.describeAddresses name] }) ∧
    (∀ lb rest, lbByName elb name = lb :: rest →
      EnsureNLB name subnet eipAllocID elb = { arn := lb.arn,
                                               dnsName := lb.dnsName,
                                               state := elb,
                                               calls := [.describeLoadBalancers name] }) ∧
    EnsureEIP name (EnsureEIP name ec2).state
      = { allocationId := (EnsureEIP name ec2).allocationId,
          publicIp := (EnsureEIP name ec2).publicIp,
          state := (EnsureEIP name ec2).state,
          calls := [.describeAddresses name] } ∧
    EnsureNLB name subnet eipAllocID (EnsureNLB name subnet eipAllocID elb).state
      = { arn := (EnsureNLB name subnet eipAllocID elb).arn,
          dnsName := (EnsureNLB name subnet eipAllocID elb).dnsName,
          state := (EnsureNLB name subnet eipAllocID elb).state,
          calls := [.describeLoadBalancers name] } := by
  refine ⟨?_, ?_, ?_, ?_⟩
  · intro a rest hdesc
    simp [EnsureEIP, hdesc]
  · intro lb rest hdesc
    simp [EnsureNLB, hdesc]
  · rcases hcase : describeAddressesByName ec2 name with _ | ⟨a, rest⟩
    · have hfirst : EnsureEIP name ec2
          = { allocationId := mkAllocId ec2.nextId,
              publicIp := mkPublicIp ec2.nextId,
              state := eipCreatedState name ec2,
              calls := [.describeAddresses name, .allocateAddress,
                .createTags (mkAllocId ec2.nextId) name] } := by
        simp only [EnsureEIP, hcase, allocateAddress]
        simp [createNameTag, eipCreatedState,
          map_tag_fresh ec2.addresses (mkAllocId ec2.nextId) name hfresh,
          tagAddress, freshAddr]
      have hdesc1 : describeAddressesByName (eipCreatedState name ec2) name
          = [freshAddr name ec2.nextId] := by
        unfold describeAddressesByName eipCreatedState
        simp only [List.filter_append]
        rw [show ec2.addresses.filter (fun a => decide (a.nameTag = name)) = []
          from hcase]
        simp [freshAddr]
      rw [hfirst]
      simp only [EnsureEIP, hdesc1]
      simp [freshAddr]
    · have h1 : EnsureEIP name ec2
          = { allocationId := a.allocationId, publicIp := a.publicIp,
              state := ec2, calls := [.describeAddresses name] } := by
        simp [EnsureEIP, hcase]
      rw [h1]
      simp [EnsureEIP, hcase]
  · rcases hcase : lbByName elb name with _ | ⟨lb, rest⟩
    · have hfirst : EnsureNLB name subnet eipAllocID elb
          = { arn := mkLBArn elb.nextId, dnsName := mkLBDns elb.nextId,
              state := nlbCreatedState name elb,
              calls := [.describeLoadBalancers name,
                .createLoadBalancer name subnet eipAllocID] } := by
        simp [EnsureNLB, hcase, nlbCreatedState]
      have hdesc1 : lbByName (nlbCreatedState name elb) name
          = [freshLB name elb.nextId] := by
        unfold lbByName nlbCreatedState
        simp only [List.filter_append]
        rw [show elb.loadBalancers.filter (fun l => decide (l.name = name)) = []
          from hcase]
        simp [freshLB]
      rw [hfirst]
      simp only [EnsureNLB, hdesc1]
      simp [freshLB]
    · have h1 : EnsureNLB name subnet eipAllocID elb
          = { arn := lb.arn, dnsName := lb.dnsName, state := elb,
              calls := [.describeLoadBalancers name] } := by
        simp [EnsureNLB, hcase]
      rw [h1]
      simp [EnsureNLB, hcase]


theorem Ensure_idempotent_witness :
    EnsureEIP (gs ("n")) (EnsureEIP (gs ("n"))
        { addresses := [], nextId := 0 }).state
      = { allocationId := (EnsureEIP (gs ("n"))
            { addresses := [], nextId := 0 }).allocationId,
          publicIp := (EnsureEIP (gs ("n"))
            { addresses := [], nextId := 0 }).publicIp,
          state := (EnsureEIP (gs ("n"))
            { addresses := [], nextId := 0 }).state,
          calls := [.describeAddresses (gs ("n"))] } :=
  (Ensure_idempotent (gs ("n")) (gs ("s")) (gs ("e"))
    { addresses := [], nextId := 0 }
    { loadBalancers := [], targetGroups := [], nextId := 0 }
    (by intro a ha; cases ha)).2.2.1


/-- C4: removing an absent resource is a successful no-op: when no load
balancer / target group with the given name exists (never created or already
removed), `RemoveNLB` / `RemoveTargetGroup` return a nil error, leave the
cloud state unchanged and issue no deletion call — only the describe call
whose NotFound exception they swallow. -/
theorem Remove_absent_noop (name : GoStr) (st : ElbState)
    (hlb : ∀ lb ∈ st.loadBalancers, lb.name ≠ name)
    (htg : ∀ tg ∈ st.targetGroups, tg.name ≠ name) :
    RemoveNLB name st
      = { err := none, state := st, calls := [.describeLoadBalancers name] } ∧
    RemoveTargetGroup name st
      = { err := none, state := st, calls := [.describeTargetGroups name] } := by
  have h1 : lbByName st name = [] :=
    filter_tag_eq_nil st.loadBalancers (fun lb => lb.name) name hlb
  have h2 : tgByName st name = [] :=
    filter_tag_eq_nil st.targetGroups (fun tg => tg.name) name htg
  exact ⟨by simp [RemoveNLB, h1], by simp [RemoveTargetGroup, h2]⟩


theorem Remove_absent_noop_witness :
    RemoveNLB (gs ("x")) { loadBalancers := [], targetGroups := [], nextId := 0 }
      = { err := none,
          state := { loadBalancers := [], targetGroups := [], nextId := 0 },
          calls := [.describeLoadBalancers (gs ("x"))] } :=
  (Remove_absent_noop (gs ("x"))
    { loadBalancers := [], targetGroups := [], nextId := 0 }
    (by intro lb h; cases h) (by intro tg h; cases h)).1


/-- C5: target-group drift handling, for both the TCP and the UDP variant:
when the target group found under the requested name already has the
requested port, Ensure returns the existing ARN with no delete and no
create; when the port differs, Ensure issues exactly one delete of that
group followed by exactly one create, and the resulting state contains a
target group with the requested name and port whose ARN is the one
returned. -/
theorem EnsureTargetGroup_drift (vpc tgName : GoStr) (port healthCheckPort : Int)
    (st : ElbState) (tg : TargetGroup) (rest : List TargetGroup)
    (hfind : tgByName st tgName = tg :: rest) :
    (tg.port = port →
      EnsureTargetGroup vpc tgName port st
          = { arn := tg.arn, state := st,
              calls := [.describeTargetGroups tgName] } ∧
      EnsureUDPTargetGroup vpc tgName port healthCheckPort st
          = { arn := tg.arn, state := st,
              calls := [.describeTargetGroups tgName] }) ∧
    (tg.port ≠ port →
      (EnsureTargetGroup vpc tgName port st).calls
          = [.describeTargetGroups tgName, .deleteTargetGroup tg.arn,
             .createTargetGroup tgName port tcpProtocol] ∧
      (∃ ntg, (EnsureTargetGroup vpc tgName port st).arn = ntg.arn ∧
        ntg ∈ (EnsureTargetGroup vpc tgName port st).state.targetGroups ∧
        ntg.name = tgName ∧ ntg.port = port) ∧
      (EnsureUDPTargetGroup vpc tgName port healthCheckPort st).calls
          = [.describeTargetGroups tgName, .deleteTargetGroup tg.arn,
             .createTargetGroup tgName port udpProtocol] ∧
      (∃ ntg, (EnsureUDPTargetGroup vpc tgName port healthCheckPort st).arn
          = ntg.arn ∧
        ntg ∈ (EnsureUDPTargetGroup vpc tgName port healthCheckPort st).state.targetGroups ∧
        ntg.name = tgName ∧ ntg.port = port)) := by
  constructor
  · intro hport
    constructor
    · simp [EnsureTargetGroup, hfind, hport]
    · simp [EnsureUDPTargetGroup, hfind, hport]
  · intro hport
    refine ⟨by simp [EnsureTargetGroup, hfind, hport], ?_, ?_, ?_⟩
    · refine ⟨createdTG tgName port tcpProtocol (deleteTargetGroupByArn st tg.arn),
        ?_, ?_, rfl, rfl⟩
      · simp [EnsureTargetGroup, hfind, hport, createTargetGroupIn, createdTG]
      · simp [EnsureTargetGroup, hfind, hport, createTargetGroupIn, createdTG]
    · simp [EnsureUDPTargetGroup, hfind, hport]
    · refine ⟨createdTG tgName port udpProtocol (deleteTargetGroupByArn st tg.arn),
        ?_, ?_, rfl, rfl⟩
      · simp [EnsureUDPTargetGroup, hfind, hport, createTargetGroupIn, createdTG]
      · simp [EnsureUDPTargetGroup, hfind, hport, createTargetGroupIn, createdTG]


theorem EnsureTargetGroup_drift_witness :
    (EnsureTargetGroup (gs ("vpc")) (gs ("t")) 443 tgDriftState).calls
      = [.describeTargetGroups (gs ("t")), .deleteTargetGroup (gs ("a1")),
         .createTargetGroup (gs ("t")) 443 tcpProtocol] :=
  ((EnsureTargetGroup_drift (gs ("vpc")) (gs ("t")) 443 444 tgDriftState
    tgDriftTG [] (by decide)).2 (by decide)).1


/-- C2 counterexample: with targets `b`, `a` registered (in the order
`DescribeTargetHealth` returns them), `EnsureTarget` for target `b` hits the
matching entry first, returns immediately, and leaves target `a` — whose ID
differs from the requested one — still registered: two targets remain, so
the single-target invariant claimed for `EnsureTarget` does not hold. -/
theorem EnsureTarget_not_single_target :
    (EnsureTarget (gs ("tg")) (gs ("b")) [gs ("b"), gs ("a")]).registered
        = [gs ("b"), gs ("a")] ∧
    gs ("a") ≠ gs ("b") ∧
    2 ≤ (EnsureTarget (gs ("tg")) (gs ("b")) [gs ("b"), gs ("a")]).registered.length :=
  ⟨by decide, by decide, by decide⟩


theorem foldl_erase_prefix (pre rest : List GoStr) (h : (pre ++ rest).Nodup) :
    pre.foldl (fun c hd => c.erase hd) (pre ++ rest) = rest := by
  induction pre with
  | nil => rfl
  | cons a pre' ih =>
    simp only [List.cons_append, List.foldl_cons, List.erase_cons_head]
    exact ih (by simpa using (List.nodup_cons.mp (by simpa using h)).2)


theorem ensureTargetLoop_absent (tgArn targetID : GoStr)
    (snapshot current : List GoStr) (h : targetID ∉ snapshot) :
    (ensureTargetLoop tgArn targetID snapshot current).registered
      = snapshot.foldl (fun c hd => c.erase hd) current ++ [targetID] := by
  induction snapshot generalizing current with
  | nil => rfl
  | cons hd rest ih =>
    have hne : hd ≠ targetID := fun he => h (he ▸ List.mem_cons_self hd rest)
    simp only [ensureTargetLoop, if_neg hne, List.foldl_cons]
    exact ih (current.erase hd) fun hm => h (List.mem_cons_of_mem _ hm)


theorem ensureTargetLoop_found (tgArn targetID : GoStr)
    (pre post current : List GoStr) (h : targetID ∉ pre) :
    (ensureTargetLoop tgArn targetID (pre ++ targetID :: post) current).registered
      = pre.foldl (fun c hd => c.erase hd) current := by
  induction pre generalizing current with
  | nil => simp [ensureTargetLoop]
  | cons a pre' ih =>
    have hne : a ≠ targetID := fun he => h (he ▸ List.mem_cons_self a pre')
    simp only [List.cons_append, ensureTargetLoop, if_neg hne, List.foldl_cons]
    exact ih (current.erase a) fun hm => h (List.mem_cons_of_mem _ hm)


/-- C2 (amended): `EnsureTarget` walks the described targets in order and
deregisters each one only until it encounters `targetID`: if `targetID` is
already registered it returns at that point, leaving `targetID` and every
target listed after it registered (so targets listed after `targetID` are
not deregistered); only when `targetID` is absent does it deregister every
currently registered target and then register `targetID`, leaving exactly
`targetID` registered. In particular, ensuring target B when only target A
is registered leaves A deregistered and only B present. -/
theorem EnsureTarget_spec (tgArn targetID : GoStr) (registered : Registered)
    (hnd : registered.Nodup) :
    (targetID ∉ registered →
      (EnsureTarget tgArn targetID registered).registered = [targetID]) ∧
    (∀ pre post, registered = pre ++ targetID :: post → targetID ∉ pre →
      (EnsureTarget tgArn targetID registered).registered
        = targetID :: post) := by
  constructor
  · intro habs
    unfold EnsureTarget
    simp only
    rw [ensureTargetLoop_absent tgArn targetID registered registered habs]
    have h0 : (registered ++ ([] : List GoStr)).Nodup := by simpa using hnd
    have := foldl_erase_prefix registered [] h0
    rw [List.append_nil] at this
    rw [this]
    rfl
  · intro pre post hsplit hpre
    unfold EnsureTarget
    simp only
    rw [hsplit, ensureTargetLoop_found tgArn targetID pre post _ hpre]
    exact foldl_erase_prefix pre (targetID :: post) (hsplit ▸ hnd)


theorem EnsureTarget_spec_witness :
    (EnsureTarget (gs ("tg")) (gs ("b")) [gs ("a")]).registered = [gs ("b")] :=
  (EnsureTarget_spec (gs ("tg")) (gs ("b")) [gs ("a")] (by decide)).1 (by decide)


/-- C1 counterexample: a snapshot containing a node with `Ready=False` only
leaves the watch condition unsatisfied (`false` with nil error, exactly as
for a merely missing node), and the wait then succeeds on a later snapshot
— so a `Ready=False` node does not make the wait return failure
immediately, contradicting the claim. -/
theorem waitForNodesReady_not_immediate_failure :
    allNodesReady 1 [nodeNotReady] = false ∧
    waitForNodesReady 1 [[nodeNotReady], [nodeReady]] = true :=
  ⟨by decide, by decide⟩


/-- C1 (amended): whenever a delivered node-list snapshot reaches the
expected count with every node's `Ready` condition `True`, the watch
condition holds and the wait returns success; a node reporting
`Ready=False` merely leaves that snapshot's condition unsatisfied, and the
wait keeps consuming further snapshots exactly as if the condition had
failed for any other reason — it does not fail immediately, and fails only
when no snapshot within the timeout satisfies the condition. -/
theorem waitForNodesReady_spec (expectedCount : Nat) (nodes : List Node)
    (obs : List (List Node)) :
    (expectedCount ≤ nodes.length →
      (∀ n ∈ nodes, nodeReadyStatus n = some .condTrue) →
      allNodesReady expectedCount nodes = true ∧
      waitForNodesReady expectedCount (obs ++ [nodes]) = true) ∧
    (∀ n ∈ nodes, nodeReadyStatus n = some CondStatus.condFalse →
      allNodesReady expectedCount nodes = false) ∧
    (allNodesReady expectedCount nodes = false →
      waitForNodesReady expectedCount (nodes :: obs)
        = waitForNodesReady expectedCount obs) := by
  refine ⟨?_, ?_, ?_⟩
  · intro hc hall
    have h1 : allNodesReady expectedCount nodes = true := by
      unfold allNodesReady
      rw [if_neg (by omega)]
      simp only [List.all_eq_true, decide_eq_true_eq]
      exact hall
    exact ⟨h1, by simp [waitForNodesReady, h1]⟩
  · intro n hn hfalse
    unfold allNodesReady
    split
    · rfl
    · cases hax : nodes.all
        (fun n => decide (nodeReadyStatus n = some .condTrue)) with
      | false => rfl
      | true =>
        have := List.all_eq_true.mp hax n hn
        rw [hfalse] at this
        exact absurd this (by decide)
  · intro h
    simp [waitForNodesReady, h]


theorem waitForNodesReady_spec_witness :
    allNodesReady 1 [nodeReady] = true ∧
    waitForNodesReady 1 ([] ++ [[nodeReady]]) = true :=
  (waitForNodesReady_spec 1 [nodeReady] []).1 (by decide) (by decide)


/-- C8: `RemoveCNameRecord` on a zone containing no record whose name
matches the DNS name succeeds having issued no change; on a zone whose scan
finds a matching record (a record set with the given name, a nonempty
resource-record list and a nonempty value), it issues exactly one DELETE
change whose resource-record value equals the value just read from that
record. -/
theorem RemoveCNameRecord_spec (zone : List ResourceRecordSet)
    (dnsName : GoStr) :
    ((∀ r ∈ zone, r.name ≠ dnsName) → RemoveCNameRecord zone dnsName = []) ∧
    (∀ r, zone.find? (fun r => decide (r.name = dnsName) && !r.values.isEmpty)
          = some r →
      r.values.headD [] ≠ [] →
      RemoveCNameRecord zone dnsName
        = [.delete dnsName cnameType (r.values.headD [])]) := by
  constructor
  · intro h
    have hf : zone.find?
        (fun r => decide (r.name = dnsName) && !r.values.isEmpty) = none := by
      rw [List.find?_eq_none]
      intro r hr
      simp [h r hr]
    simp [RemoveCNameRecord, readCNameValue, hf]
  · intro r hfind hne
    have hv : readCNameValue zone dnsName = r.values.headD [] := by
      simp [readCNameValue, hfind]
    unfold RemoveCNameRecord
    rw [hv, if_neg hne]


theorem RemoveCNameRecord_spec_witness :
    RemoveCNameRecord [cnameRecWitness] (gs ("api.example.com"))
      = [.delete (gs ("api.example.com")) cnameType
          (cnameRecWitness.values.headD [])] :=
  (RemoveCNameRecord_spec [cnameRecWitness] (gs ("api.example.com"))).2
    cnameRecWitness (by decide) (by decide)


/-- C9: when the target namespace already exists on the management cluster,
`InstallCluster` returns the precondition error before performing any
mutation: no namespace is created, no Kubernetes object is written, no
cloud resource is ensured — the state visible after the call is exactly the
state before it. -/
theorem InstallCluster_precondition (name : GoStr) (st : InstallState)
    (h : name ∈ st.namespaces) :
    InstallCluster name st = { err := some nsExistsErr, state := st } := by
  unfold InstallCluster
  rw [if_pos h]


theorem InstallCluster_precondition_witness :
    InstallCluster (gs ("demo")) instPreWitnessState
      = { err := some nsExistsErr, state := instPreWitnessState } :=
  InstallCluster_precondition (gs ("demo")) instPreWitnessState (by decide)


end Hypershift
